import Mathlib

/-!
Daily Top 5 task tracker — verification of the computational core.

A shallow embedding, in Lean 4, of the computational core of the
"daily top 5" task-tracking web application: the streak calculator
(`calculateStreak` in `App.tsx`), the badge evaluator
(`checkAndAwardBadges` in the gamification component), the insight
generator (`generateInsights` in `AIInsights.tsx`), the creation /
toggle / reorder task operations of `App.tsx`, and the reactive
badge-award effect of the gamification component.

Modelling conventions:

* Calendar dates are modelled as integers (day indices).  The source
  manipulates ISO `YYYY-MM-DD` date strings produced by day-by-day
  offsets from "today"; day indices are order- and
  successor-isomorphic to those strings.
* JavaScript numbers holding counts, streaks and minutes are modelled
  as `Nat`; fractional quantities (weekly-progress percentages,
  insight confidences, estimation accuracies) as `Rat`, idealising
  IEEE doubles by exact rationals.
* Optional record fields (`estimated_minutes?`, `actual_minutes?`)
  are modelled as `Option Nat`; JavaScript truthiness tests on them
  hold exactly of `some n` with `n ≠ 0`.
* Store traffic is modelled explicitly: operations return the list of
  create calls they issue alongside the new local state, so "no store
  call is made" is a statement about that list.
-/

namespace DailyTop5

/-- The `Task` record of `App.tsx` (fields named as in its `Task`
interface; `date` is a day index, see the module comment). -/
structure Task where
  id : String
  title : String
  priority : Nat
  completed : Bool
  date : Int
  user_id : String
  category : String
  estimated_minutes : Option Nat
  actual_minutes : Option Nat
  energy_level : String
deriving Repr, DecidableEq, Inhabited

/-- The dates carried by a list of completed-task records.  The source
groups tasks into a `date → tasks` map and asks whether a date has a
non-empty bucket; a date has a non-empty bucket exactly when it occurs
in this list. -/
def datesOf (completedTasks : List Task) : List Int :=
  completedTasks.map (·.date)

/-- The scanning loop of `calculateStreak` (`App.tsx` lines 278-288):
starting at day offset `i` below today and with `fuel` loop iterations
remaining (365 at the top call), count consecutive offsets whose date
occurs among the completed tasks, stopping at the first missing
date. -/
def streakScan (dates : List Int) (today : Int) : Nat → Nat → Nat
  | _, 0 => 0
  | i, fuel + 1 =>
      if today - (i : Int) ∈ dates then streakScan dates today (i + 1) fuel + 1 else 0

/-- The streak calculator `calculateStreak` of `App.tsx` (lines
260-291): 0 on an empty history, otherwise the number of consecutive
days counted backward from `today` whose date occurs in the history,
scanning at most 365 days. -/
def calculateStreak (today : Int) (completedTasks : List Task) : Nat :=
  if completedTasks.isEmpty then 0
  else streakScan (datesOf completedTasks) today 0 365

theorem streakScan_le (dates : List Int) (today : Int) (i fuel : Nat) :
    streakScan dates today i fuel ≤ fuel := by
  induction fuel generalizing i with
  | zero => simp [streakScan]
  | succ n ih =>
    rw [streakScan]
    split
    · exact Nat.succ_le_succ (ih _)
    · exact Nat.zero_le _

theorem streakScan_mem (dates : List Int) (today : Int) (i fuel j : Nat)
    (hj : j < streakScan dates today i fuel) :
    today - ((i + j : Nat) : Int) ∈ dates := by
  induction fuel generalizing i j with
  | zero => simp [streakScan] at hj
  | succ n ih =>
    rw [streakScan] at hj
    split at hj
    · match j with
      | 0 => simpa using ‹today - (i : Int) ∈ dates›
      | k + 1 =>
          have hk : k < streakScan dates today (i + 1) n := Nat.lt_of_succ_lt_succ hj
          have := ih (i + 1) k hk
          have harith : ((i + 1) + k : Nat) = (i + (k + 1) : Nat) := by omega
          rwa [harith] at this
    · exact absurd hj (Nat.not_lt_zero j)

theorem streakScan_stop (dates : List Int) (today : Int) (i fuel : Nat)
    (h : streakScan dates today i fuel < fuel) :
    today - ((i + streakScan dates today i fuel : Nat) : Int) ∉ dates := by
  induction fuel generalizing i with
  | zero => exact absurd h (Nat.not_lt_zero _)
  | succ n ih =>
    rw [streakScan] at h ⊢
    by_cases hc : today - (i : Int) ∈ dates
    · rw [if_pos hc] at h ⊢
      have hlt : streakScan dates today (i + 1) n < n := Nat.lt_of_succ_lt_succ h
      have := ih (i + 1) hlt
      have harith : ((i + 1) + streakScan dates today (i + 1) n : Nat) =
          (i + (streakScan dates today (i + 1) n + 1) : Nat) := by omega
      rwa [harith] at this
    · rw [if_neg hc]
      simpa using hc

theorem streakScan_all (dates : List Int) (today : Int) (i fuel : Nat)
    (h : ∀ j < fuel, today - ((i + j : Nat) : Int) ∈ dates) :
    streakScan dates today i fuel = fuel := by
  induction fuel generalizing i with
  | zero => simp [streakScan]
  | succ n ih =>
    rw [streakScan]
    have h0 : today - (i : Int) ∈ dates := by simpa using h 0 (Nat.succ_pos n)
    rw [if_pos h0, ih]
    intro j hj
    have := h (j + 1) (Nat.succ_lt_succ hj)
    have harith : (i + (j + 1) : Nat) = ((i + 1) + j : Nat) := by omega
    rwa [harith] at this

/-- A completed-task record on day `d`; only the date matters to the
streak calculator. -/
def onDay (d : Int) : Task :=
  { id := "t", title := "t", priority := 1, completed := true, date := d,
    user_id := "u", category := "general", estimated_minutes := none,
    actual_minutes := none, energy_level := "medium" }

/-- C1: the streak calculator returns the length of the run of
consecutive calendar days counted backward from today whose date is
present in the history, stopping at the first missing date: every day
offset below the returned streak is present, and (within the 365-day
scan window) the day offset equal to the returned streak is absent; in
particular an empty history yields 0, and a history without today's
date yields 0. -/
theorem calculateStreak_run (today : Int) (h : List Task) :
    (h = [] → calculateStreak today h = 0) ∧
    (today ∉ datesOf h → calculateStreak today h = 0) ∧
    (∀ j < calculateStreak today h, today - (j : Int) ∈ datesOf h) ∧
    (calculateStreak today h < 365 →
      today - ((calculateStreak today h : Nat) : Int) ∉ datesOf h) := by
  unfold calculateStreak
  by_cases hemp : h.isEmpty
  · have hnil : h = [] := List.isEmpty_iff.mp hemp
    subst hnil
    refine ⟨fun _ => by simp, fun _ => by simp, ?_, ?_⟩
    · intro j hj
      simp at hj
    · intro _
      simp [datesOf]
  · rw [if_neg hemp]
    refine ⟨fun hnil => absurd (by simp [hnil]) hemp, ?_, ?_, ?_⟩
    · intro htoday
      rw [streakScan]
      simp only [Nat.cast_zero, sub_zero]
      rw [if_neg htoday]
    · intro j hj
      have := streakScan_mem (datesOf h) today 0 365 j hj
      simpa using this
    · intro hlt
      have := streakScan_stop (datesOf h) today 0 365 hlt
      simpa using this

/-- Witness for C1 at concrete inputs: the empty history yields streak
0, and a history containing only yesterday (today absent) yields
streak 0. -/
theorem calculateStreak_run_w :
    calculateStreak 0 [] = 0 ∧ calculateStreak 5 [onDay 4] = 0 :=
  ⟨(calculateStreak_run 0 []).1 rfl,
   (calculateStreak_run 5 [onDay 4]).2.1 (by decide)⟩

/-- A 400-day unbroken run of daily completions ending today. -/
def run400 (today : Int) : List Task :=
  ((List.range 400).map (fun i : Nat => today - (i : Int))).map onDay

theorem datesOf_map_onDay (l : List Int) : datesOf (l.map onDay) = l := by
  induction l with
  | nil => rfl
  | cons a t ih => simpa [datesOf, onDay] using ih

/-- C2: the streak calculator never scans more than 365 days back, so
the result is at most 365 on every history; a 400-day unbroken run of
daily completions yields exactly 365. -/
theorem calculateStreak_capped (today : Int) (h : List Task) :
    calculateStreak today h ≤ 365 ∧ calculateStreak today (run400 today) = 365 := by
  constructor
  · unfold calculateStreak
    split
    · exact Nat.zero_le _
    · exact streakScan_le _ _ _ _
  · unfold calculateStreak
    have hlen : (run400 today).length = 400 := by simp [run400]
    have hne : ¬ (run400 today).isEmpty = true := by
      intro hemp
      rw [List.isEmpty_iff.mp hemp] at hlen
      simp at hlen
    rw [if_neg hne]
    apply streakScan_all
    intro j hj
    simp only [Nat.zero_add]
    have hmem : today - (j : Int) ∈ datesOf (run400 today) := by
      rw [run400, datesOf_map_onDay]
      have hj400 : j ∈ List.range 400 :=
        List.mem_range.mpr (Nat.lt_of_lt_of_le hj (by norm_num))
      exact List.mem_map.mpr ⟨j, hj400, rfl⟩
    simpa using hmem

/-! Badge evaluator (gamification component, `checkAndAwardBadges`). -/

/-- Weekly progress percentage of the gamification component:
`(completedTasksThisWeek / weeklyGoal) * 100`. -/
def weeklyProgress (completedTasksThisWeek weeklyGoal : Nat) : Rat :=
  ((completedTasksThisWeek : Rat) / (weeklyGoal : Rat)) * 100

/-- The pure core of `checkAndAwardBadges` (gamification component,
lines 90-142): the list of badge types pushed onto `newBadges`, in
program order — each badge type is appended when its eligibility
condition holds and it is not among the already-earned types. -/
def checkAndAwardBadges (currentStreak completedTasksThisWeek weeklyGoal : Nat)
    (existingBadgeTypes : List String) : List String :=
  (if 3 ≤ currentStreak ∧ "streak_3" ∉ existingBadgeTypes then ["streak_3"] else []) ++
  (if 7 ≤ currentStreak ∧ "streak_7" ∉ existingBadgeTypes then ["streak_7"] else []) ++
  (if 14 ≤ currentStreak ∧ "streak_14" ∉ existingBadgeTypes then ["streak_14"] else []) ++
  (if 30 ≤ currentStreak ∧ "streak_30" ∉ existingBadgeTypes then ["streak_30"] else []) ++
  (if 100 ≤ weeklyProgress completedTasksThisWeek weeklyGoal ∧
      "weekly_goal" ∉ existingBadgeTypes then ["weekly_goal"] else [])

/-- The badge catalog, in the fixed order in which the evaluator
checks it. -/
def badgeCatalog : List String :=
  ["streak_3", "streak_7", "streak_14", "streak_30", "weekly_goal"]

/-- Eligibility condition of a single catalog entry, read off the
evaluator's checks. -/
def badgeEligible (currentStreak completedTasksThisWeek weeklyGoal : Nat)
    (t : String) : Bool :=
  if t = "streak_3" then decide (3 ≤ currentStreak)
  else if t = "streak_7" then decide (7 ≤ currentStreak)
  else if t = "streak_14" then decide (14 ≤ currentStreak)
  else if t = "streak_30" then decide (30 ≤ currentStreak)
  else if t = "weekly_goal" then
    decide (100 ≤ weeklyProgress completedTasksThisWeek weeklyGoal)
  else false

theorem if_singleton_append (p : Prop) [Decidable p] (t : String) (rest : List String) :
    (if p then [t] else []) ++ rest = if p then t :: rest else rest := by
  split <;> simp

theorem if_cons_append (p : Prop) [Decidable p] (t : String) (l r : List String) :
    (if p then t :: l else l) ++ r = if p then t :: (l ++ r) else l ++ r := by
  split <;> simp

theorem checkAndAwardBadges_eq_filter (s c g : Nat) (earned : List String) :
    checkAndAwardBadges s c g earned =
      badgeCatalog.filter (fun t => badgeEligible s c g t && decide (t ∉ earned)) := by
  have e3 : badgeEligible s c g "streak_3" = decide (3 ≤ s) := rfl
  have e7 : badgeEligible s c g "streak_7" = decide (7 ≤ s) := rfl
  have e14 : badgeEligible s c g "streak_14" = decide (14 ≤ s) := rfl
  have e30 : badgeEligible s c g "streak_30" = decide (30 ≤ s) := rfl
  have ew : badgeEligible s c g "weekly_goal" = decide (100 ≤ weeklyProgress c g) := rfl
  simp only [checkAndAwardBadges, badgeCatalog, List.filter_cons, List.filter_nil,
    e3, e7, e14, e30, ew, Bool.and_eq_true, decide_eq_true_iff]
  simp only [if_singleton_append, if_cons_append, List.append_nil, List.nil_append]

/-- C3: the badge evaluator checks every catalog entry independently
in the fixed catalog order streak_3, streak_7, streak_14, streak_30,
weekly_goal, returning in one pass exactly the eligible,
not-yet-earned types in that order; for currentStreak 10, weekly
metrics below threshold and no earned badges, it returns exactly
[streak_3, streak_7]. -/
theorem checkAndAwardBadges_catalogOrder (s c g : Nat) (earned : List String) :
    checkAndAwardBadges s c g earned =
      badgeCatalog.filter (fun t => badgeEligible s c g t && decide (t ∉ earned)) ∧
    checkAndAwardBadges 10 2 35 [] = ["streak_3", "streak_7"] := by
  refine ⟨checkAndAwardBadges_eq_filter s c g earned, ?_⟩
  have hw : ¬ (100 ≤ weeklyProgress 2 35) := by
    simp only [weeklyProgress]
    norm_num
  simp [checkAndAwardBadges, hw]

/-- C4: the badge evaluator is idempotent with respect to the
already-earned set: a type in the already-earned set is never
returned, and a second evaluation with the same metrics, against an
earned set extended by the first call's results, returns nothing. -/
theorem checkAndAwardBadges_idempotent (s c g : Nat) (earned : List String) :
    (∀ t ∈ earned, t ∉ checkAndAwardBadges s c g earned) ∧
    checkAndAwardBadges s c g (checkAndAwardBadges s c g earned ++ earned) = [] := by
  constructor
  · intro t ht hmem
    rw [checkAndAwardBadges_eq_filter] at hmem
    have h2 := (List.mem_filter.mp hmem).2
    simp only [Bool.and_eq_true, decide_eq_true_iff] at h2
    exact h2.2 ht
  · rw [checkAndAwardBadges_eq_filter]
    rw [List.filter_eq_nil_iff]
    intro t ht
    simp only [Bool.and_eq_true, decide_eq_true_iff, not_and, not_not]
    intro helig
    by_cases hE : t ∈ earned
    · exact List.mem_append_right _ hE
    · refine List.mem_append_left _ ?_
      rw [checkAndAwardBadges_eq_filter]
      exact List.mem_filter.mpr ⟨ht, by simp [helig, hE]⟩

/-- Witness for C4 at concrete inputs: streak_3, already earned, is
not re-returned for streak 10, and a second evaluation over the
results of a first one from an empty earned set returns nothing. -/
theorem checkAndAwardBadges_idempotent_w :
    "streak_3" ∉ checkAndAwardBadges 10 0 35 ["streak_3"] ∧
    checkAndAwardBadges 10 0 35 (checkAndAwardBadges 10 0 35 [] ++ []) = [] :=
  ⟨(checkAndAwardBadges_idempotent 10 0 35 ["streak_3"]).1 "streak_3"
      (List.mem_singleton.mpr rfl),
   (checkAndAwardBadges_idempotent 10 0 35 []).2⟩

/-! Task creation, toggle and reorder operations (`App.tsx`). -/

/-- A call issued to the task store by the creation path. -/
inductive StoreCall where
  | create (t : Task)
deriving DecidableEq, Repr

/-- The capacity guard of `addTask` (`App.tsx` line 344), under the
name the specification gives it: the add proceeds past the capacity
check exactly when the guard `tasks.length >= dailyTaskLimit` does not
fire. -/
def canAddTask (currentCount dailyLimit : Nat) : Bool :=
  !(decide (dailyLimit ≤ currentCount))

/-- The `addTask` handler (`App.tsx` lines 341-376) as a function of
the component state it reads.  It returns the new local task list
together with the list of store calls issued.  The id of the created
record is passed in (the source derives it from the clock and a
random suffix); `selectedDate` is the day index of the selected
date. -/
def addTask (userId : Option String) (newTaskTitle : String) (isCreatingTask : Bool)
    (tasks : List Task) (dailyTaskLimit : Nat) (newId : String) (selectedDate : Int) :
    List Task × List StoreCall :=
  match userId with
  | none => (tasks, [])
  | some uid =>
    if newTaskTitle.trim = "" ∨ isCreatingTask then (tasks, [])
    else if dailyTaskLimit ≤ tasks.length then (tasks, [])
    else
      let newTask : Task :=
        { id := newId, title := newTaskTitle.trim, priority := tasks.length + 1,
          completed := false, date := selectedDate, user_id := uid,
          category := "general", estimated_minutes := some 30,
          actual_minutes := none, energy_level := "medium" }
      (tasks ++ [newTask], [StoreCall.create newTask])

/-- The `toggleTask` handler (`App.tsx` lines 402-427) restricted to
its effect on the local task list: flip the completed flag of the
task with the given id (no-op when the id is absent). -/
def toggleTask (tasks : List Task) (taskId : String) : List Task :=
  match tasks.find? (fun t => decide (t.id = taskId)) with
  | none => tasks
  | some task =>
      tasks.map (fun t =>
        if t.id = taskId then { t with completed := !task.completed } else t)

/-- Direction argument of `movePriority`. -/
inductive MoveDirection where
  | up
  | down
deriving DecidableEq, Repr

/-- JavaScript `Array.findIndex`, with the not-found result `-1`
modelled as `none`. -/
def findIndex (p : Task → Bool) : List Task → Option Nat
  | [] => none
  | t :: ts => if p t then some 0 else (findIndex p ts).map (· + 1)

/-- The renumbering pass of `movePriority`
(`newTasks.map((task, index) => ({...task, priority: index + 1}))`):
assign priorities `n, n + 1, ...` by position. -/
def renumberFrom (n : Nat) : List Task → List Task
  | [] => []
  | t :: ts => { t with priority := n } :: renumberFrom (n + 1) ts

/-- The target index `taskIndex ∓ 1` computed by `movePriority`. -/
def moveTargetIdx (taskIndex : Nat) : MoveDirection → Int
  | .up => (taskIndex : Int) - 1
  | .down => (taskIndex : Int) + 1

/-- The `movePriority` handler (`App.tsx` lines 455-485) restricted to
its effect on the local task list: locate the task by id, compute the
adjacent target index, and unless the target is out of range, remove
the task, reinsert it at the target index and renumber all priorities
to 1-based positions. -/
def movePriority (tasks : List Task) (taskId : String) (direction : MoveDirection) :
    List Task :=
  match findIndex (fun t => decide (t.id = taskId)) tasks with
  | none => tasks
  | some taskIndex =>
    let newIndex : Int := moveTargetIdx taskIndex direction
    if newIndex < 0 ∨ (tasks.length : Int) ≤ newIndex then tasks
    else
      match tasks[taskIndex]? with
      | none => tasks
      | some movedTask =>
          renumberFrom 1 ((tasks.eraseIdx taskIndex).insertIdx newIndex.toNat movedTask)

theorem findIndex_lt (p : Task → Bool) (l : List Task) (i : Nat)
    (h : findIndex p l = some i) : i < l.length := by
  induction l generalizing i with
  | nil => simp [findIndex] at h
  | cons t ts ih =>
    rw [findIndex] at h
    split at h
    · simp at h
      simp only [List.length_cons]
      omega
    · match hrec : findIndex p ts with
      | none => rw [hrec] at h; simp at h
      | some j =>
          rw [hrec] at h
          simp at h
          have := ih j hrec
          simp only [List.length_cons]
          omega

theorem renumberFrom_priorities (n : Nat) (l : List Task) :
    (renumberFrom n l).map (·.priority) = List.range' n l.length := by
  induction l generalizing n with
  | nil => simp [renumberFrom]
  | cons t ts ih => simp [renumberFrom, List.range'_succ, ih]

theorem renumberFrom_titles (n : Nat) (l : List Task) :
    (renumberFrom n l).map (·.title) = l.map (·.title) := by
  induction l generalizing n with
  | nil => simp [renumberFrom]
  | cons t ts ih => simp [renumberFrom, ih]

theorem renumberFrom_length (n : Nat) (l : List Task) :
    (renumberFrom n l).length = l.length := by
  induction l generalizing n with
  | nil => simp [renumberFrom]
  | cons t ts ih => simp [renumberFrom, ih]

theorem movePriority_noop_notFound (tasks : List Task) (taskId : String)
    (dir : MoveDirection) (h : findIndex (fun t => decide (t.id = taskId)) tasks = none) :
    movePriority tasks taskId dir = tasks := by
  simp [movePriority, h]

theorem movePriority_noop_outOfRange (tasks : List Task) (taskId : String)
    (dir : MoveDirection) (i : Nat)
    (hfind : findIndex (fun t => decide (t.id = taskId)) tasks = some i)
    (hout : moveTargetIdx i dir < 0 ∨ (tasks.length : Int) ≤ moveTargetIdx i dir) :
    movePriority tasks taskId dir = tasks := by
  simp [movePriority, hfind, hout]

theorem movePriority_eq_renumber (tasks : List Task) (taskId : String)
    (dir : MoveDirection) (i : Nat) (movedTask : Task)
    (hfind : findIndex (fun t => decide (t.id = taskId)) tasks = some i)
    (hget : tasks[i]? = some movedTask)
    (hin : ¬ (moveTargetIdx i dir < 0 ∨ (tasks.length : Int) ≤ moveTargetIdx i dir)) :
    movePriority tasks taskId dir =
      renumberFrom 1 ((tasks.eraseIdx i).insertIdx (moveTargetIdx i dir).toNat movedTask) := by
  simp [movePriority, hfind, hget, hin]

theorem movePriority_spliced_length (tasks : List Task) (i : Nat) (movedTask : Task)
    (dir : MoveDirection) (hi : i < tasks.length)
    (hin : ¬ (moveTargetIdx i dir < 0 ∨ (tasks.length : Int) ≤ moveTargetIdx i dir)) :
    ((tasks.eraseIdx i).insertIdx (moveTargetIdx i dir).toNat movedTask).length =
      tasks.length := by
  push_neg at hin
  obtain ⟨h0, hlt⟩ := hin
  have htn : (moveTargetIdx i dir).toNat ≤ tasks.length - 1 := by omega
  rw [List.length_insertIdx _ _ (by rw [List.length_eraseIdx, if_pos hi]; exact htn)]
  rw [List.length_eraseIdx, if_pos hi]
  omega

/-- The priority invariant of the data model: the priority values of
a day's task list form a contiguous 1..count permutation. -/
def priorityInv (tasks : List Task) : Prop :=
  (tasks.map (·.priority)).Perm (List.range' 1 tasks.length)

instance priorityInvDecidable (tasks : List Task) : Decidable (priorityInv tasks) := by
  unfold priorityInv
  infer_instance

/-- A sample priority task for concrete instances. -/
def mkSample (i ttl : String) (p : Nat) : Task :=
  { id := i, title := ttl, priority := p, completed := false, date := 0,
    user_id := "u", category := "general", estimated_minutes := some 30,
    actual_minutes := none, energy_level := "medium" }

/-- Five tasks titled A..E with priorities 1..5. -/
def exFive : List Task :=
  [mkSample "a" "A" 1, mkSample "b" "B" 2, mkSample "c" "C" 3,
   mkSample "d" "D" 4, mkSample "e" "E" 5]

/-- C5: task creation is validated locally before any store call: the
capacity guard passes exactly when the current count is below the
daily limit, and an attempt with an empty (whitespace-only) title or
with the day's task count at the daily limit leaves the task list
unchanged and issues no store call. -/
theorem addTask_validatesLocally (uid title : String) (busy : Bool) (tasks : List Task)
    (limit : Nat) (nid : String) (d : Int) (c l : Nat) :
    (canAddTask c l = true ↔ c < l) ∧
    (title.trim = "" → addTask (some uid) title busy tasks limit nid d = (tasks, [])) ∧
    (limit ≤ tasks.length → addTask (some uid) title busy tasks limit nid d = (tasks, [])) := by
  refine ⟨?_, ?_, ?_⟩
  · simp [canAddTask]
  · intro ht
    simp [addTask, ht]
  · intro hcap
    simp only [addTask]
    by_cases ht : title.trim = "" ∨ busy = true
    · rw [if_pos ht]
    · rw [if_neg ht, if_pos hcap]

/-- Witness for C5 at concrete inputs: the capacity guard admits a 5th
task but rejects a 6th, and with five tasks already present for the
day an attempt to add a 6th leaves the list unchanged and issues no
store call. -/
theorem addTask_validatesLocally_w :
    canAddTask 4 5 = true ∧ ¬ canAddTask 5 5 = true ∧
    addTask (some "u") "task six" false exFive 5 "t6" 0 = (exFive, []) := by
  refine ⟨?_, ?_, ?_⟩
  · exact (addTask_validatesLocally "u" "x" false [] 5 "n" 0 4 5).1.mpr (by norm_num)
  · intro h
    have := (addTask_validatesLocally "u" "x" false [] 5 "n" 0 5 5).1.mp h
    omega
  · exact (addTask_validatesLocally "u" "task six" false exFive 5 "t6" 0 0 1).2.2
      (by simp [exFive])

/-- C6 counterexample: a single reorder call starting from index 0
cannot land at index 2 — the operation takes a task id and a one-step
direction, so from index 0 the downward move lands at index 1 (title
order [B,A,C,D,E]) and the upward move is out of range (list
unchanged); neither equals the claimed [B,C,A,D,E]. -/
theorem movePriority_singleCall_cex :
    (movePriority exFive "a" MoveDirection.down).map (·.title) = ["B", "A", "C", "D", "E"] ∧
    (movePriority exFive "a" MoveDirection.up).map (·.title) = ["A", "B", "C", "D", "E"] ∧
    (["B", "A", "C", "D", "E"] : List String) ≠ ["B", "C", "A", "D", "E"] ∧
    (["A", "B", "C", "D", "E"] : List String) ≠ ["B", "C", "A", "D", "E"] := by
  decide

/-- C6 (amended): the reorder operation takes a task id and a one-step
direction; it removes the element at the task's index, reinserts it at
the adjacent target index, then renumbers every element's priority to
its new 1-based position, and is a no-op when the id is absent or the
target index is out of range.  Moving the task at index 0 down twice
yields title order [B,C,A,D,E] with priorities still [1,2,3,4,5]. -/
theorem movePriority_reorders (tasks : List Task) (taskId : String) (dir : MoveDirection) :
    (findIndex (fun t => decide (t.id = taskId)) tasks = none →
      movePriority tasks taskId dir = tasks) ∧
    (∀ i, findIndex (fun t => decide (t.id = taskId)) tasks = some i →
      (moveTargetIdx i dir < 0 ∨ (tasks.length : Int) ≤ moveTargetIdx i dir) →
      movePriority tasks taskId dir = tasks) ∧
    (∀ i movedTask, findIndex (fun t => decide (t.id = taskId)) tasks = some i →
      tasks[i]? = some movedTask →
      ¬ (moveTargetIdx i dir < 0 ∨ (tasks.length : Int) ≤ moveTargetIdx i dir) →
      (movePriority tasks taskId dir).map (·.title) =
          ((tasks.eraseIdx i).insertIdx (moveTargetIdx i dir).toNat movedTask).map
            (·.title) ∧
        (movePriority tasks taskId dir).map (·.priority) =
          List.range' 1 tasks.length) ∧
    ((movePriority (movePriority exFive "a" MoveDirection.down) "a"
        MoveDirection.down).map (·.title) = ["B", "C", "A", "D", "E"] ∧
      (movePriority (movePriority exFive "a" MoveDirection.down) "a"
        MoveDirection.down).map (·.priority) = [1, 2, 3, 4, 5]) := by
  refine ⟨?_, ?_, ?_, ?_⟩
  · exact movePriority_noop_notFound tasks taskId dir
  · exact fun i hfind hout => movePriority_noop_outOfRange tasks taskId dir i hfind hout
  · intro i movedTask hfind hget hin
    have hi : i < tasks.length := findIndex_lt _ _ _ hfind
    rw [movePriority_eq_renumber tasks taskId dir i movedTask hfind hget hin]
    refine ⟨renumberFrom_titles _ _, ?_⟩
    rw [renumberFrom_priorities, movePriority_spliced_length tasks i movedTask dir hi hin]
  · constructor <;> decide

/-- Witness for C6 (amended) at a concrete input: moving the task at
index 0 upward is out of range and leaves the list unchanged. -/
theorem movePriority_reorders_w : movePriority exFive "a" MoveDirection.up = exFive :=
  (movePriority_reorders exFive "a" MoveDirection.up).2.1 0 (by decide) (by decide)

theorem movePriority_inv (tasks : List Task) (tid : String) (dir : MoveDirection)
    (hinv : priorityInv tasks) : priorityInv (movePriority tasks tid dir) := by
  cases hfind : findIndex (fun t => decide (t.id = tid)) tasks with
  | none => rw [movePriority_noop_notFound tasks tid dir hfind]; exact hinv
  | some i =>
    by_cases hout : moveTargetIdx i dir < 0 ∨ (tasks.length : Int) ≤ moveTargetIdx i dir
    · rw [movePriority_noop_outOfRange tasks tid dir i hfind hout]; exact hinv
    · have hi : i < tasks.length := findIndex_lt _ _ _ hfind
      have hget : tasks[i]? = some tasks[i] := List.getElem?_eq_getElem hi
      unfold priorityInv
      rw [movePriority_eq_renumber tasks tid dir i _ hfind hget hout,
        renumberFrom_priorities, renumberFrom_length,
        movePriority_spliced_length tasks i _ dir hi hout]

/-- C7: for a fixed user and date, every operation preserves the
contiguous 1..count priority invariant: creation assigns the new task
priority count+1 and preserves the invariant, toggle-complete leaves
every priority unchanged, and reorder renumbers all siblings to their
1-based positions. -/
theorem operations_preserve_priorityInv (tasks : List Task) (uid title : String)
    (busy : Bool) (limit : Nat) (nid : String) (d : Int) (tid : String)
    (dir : MoveDirection) (hinv : priorityInv tasks) :
    priorityInv (addTask (some uid) title busy tasks limit nid d).1 ∧
    (∀ t', StoreCall.create t' ∈ (addTask (some uid) title busy tasks limit nid d).2 →
      t'.priority = tasks.length + 1) ∧
    (toggleTask tasks tid).map (·.priority) = tasks.map (·.priority) ∧
    priorityInv (toggleTask tasks tid) ∧
    priorityInv (movePriority tasks tid dir) := by
  have htog : (toggleTask tasks tid).map (·.priority) = tasks.map (·.priority) := by
    unfold toggleTask
    cases tasks.find? (fun t => decide (t.id = tid)) with
    | none => rfl
    | some task =>
      rw [List.map_map]
      refine List.map_congr_left ?_
      intro t _
      by_cases h : t.id = tid <;> simp [h]
  have htoglen : (toggleTask tasks tid).length = tasks.length := by
    unfold toggleTask
    cases tasks.find? (fun t => decide (t.id = tid)) with
    | none => rfl
    | some task => simp
  refine ⟨?_, ?_, htog, ?_, movePriority_inv tasks tid dir hinv⟩
  · simp only [addTask]
    by_cases ht : title.trim = "" ∨ busy = true
    · rw [if_pos ht]; exact hinv
    · rw [if_neg ht]
      by_cases hcap : limit ≤ tasks.length
      · rw [if_pos hcap]; exact hinv
      · rw [if_neg hcap]
        unfold priorityInv
        simp only [List.map_append, List.map_cons, List.map_nil, List.length_append,
          List.length_cons, List.length_nil]
        have hconc : List.range' 1 (tasks.length + 1) =
            List.range' 1 tasks.length ++ [tasks.length + 1] := by
          rw [List.range'_concat]
          congr 1
          simp [Nat.add_comm]
        rw [Nat.add_zero, hconc]
        exact hinv.append_right _
  · intro t' hmem
    simp only [addTask] at hmem
    by_cases ht : title.trim = "" ∨ busy = true
    · rw [if_pos ht] at hmem; simp at hmem
    · rw [if_neg ht] at hmem
      by_cases hcap : limit ≤ tasks.length
      · rw [if_pos hcap] at hmem; simp at hmem
      · rw [if_neg hcap] at hmem
        simp only [List.mem_singleton] at hmem
        cases hmem
        rfl
  · unfold priorityInv
    rw [htog, htoglen]
    exact hinv

/-- Witness for C7 at a concrete input: the invariant holds of the
five sample tasks and is preserved by toggling the first one. -/
theorem operations_preserve_priorityInv_w :
    priorityInv exFive ∧ priorityInv (toggleTask exFive "a") :=
  ⟨by decide,
   (operations_preserve_priorityInv exFive "u" "T" false 5 "n" 0 "a"
      MoveDirection.down (by decide)).2.2.2.1⟩

/-! Insight generator (`AIInsights.tsx`, `generateInsights`). -/

/-- An insight record of `AIInsights.tsx`.  The dynamic content the
source interpolates into the description string is modelled
structurally: `category` and `percent` hold the interpolated
values. -/
structure Insight where
  id : String
  type : String
  title : String
  category : Option String
  percent : Option Int
  confidence : Rat
  actionable : Bool
deriving DecidableEq, Repr

/-- The `categoryStats` object of the category-concentration rule as
its entry list: categories in first-occurrence order (JavaScript
object keys are kept in insertion order), each with its occurrence
count over the window. -/
def categoryEntries (recentTasks : List Task) : List (String × Nat) :=
  ((recentTasks.map (·.category)).eraseDups).map
    (fun c => (c, (recentTasks.filter (fun t => decide (t.category = c))).length))

/-- The head of the entries sorted by descending count
(`.sort(([,a],[,b]) => b - a)[0]`).  JavaScript array sort is stable,
so ties keep the earlier entry; the first entry attaining the maximal
count is selected. -/
def topEntry : List (String × Nat) → Option (String × Nat)
  | [] => none
  | e :: es => some (es.foldl (fun b x => if b.2 < x.2 then x else b) e)

/-- The category-concentration rule of `generateInsights`
(`AIInsights.tsx` lines 46-65): for a history of length at least 7,
take `slice(-14)` of the history (its trailing fourteen records),
count occurrences per category, and report the top category and its
rounded percentage share of the window, confidence 0.85. -/
def categoryInsight (completedTasksHistory : List Task) : Option Insight :=
  if 7 ≤ completedTasksHistory.length then
    let recentTasks := completedTasksHistory.drop (completedTasksHistory.length - 14)
    match topEntry (categoryEntries recentTasks) with
    | none => none
    | some top =>
        some { id := "category-pattern", type := "pattern",
               title := "Category Focus Detected",
               category := some top.1,
               percent := some (round ((top.2 : Rat) / (recentTasks.length : Rat) * 100)),
               confidence := 0.85, actionable := true }
  else none

/-- JavaScript truthiness filter of the time-estimation rule
(`t.estimatedMinutes && t.actualMinutes`): both minute fields present
and nonzero. -/
def hasTime (t : Task) : Bool :=
  decide (t.estimated_minutes.getD 0 ≠ 0) && decide (t.actual_minutes.getD 0 ≠ 0)

/-- Per-record estimation accuracy:
`max(0, 1 - |estimated - actual| / estimated)`. -/
def recordAccuracy (t : Task) : Rat :=
  max 0 (1 - |((t.estimated_minutes.getD 0 : Nat) : Rat) -
    ((t.actual_minutes.getD 0 : Nat) : Rat)| / ((t.estimated_minutes.getD 0 : Nat) : Rat))

/-- Mean accuracy over a list of records (the source's `reduce`
divided by the length). -/
def avgAccuracy (l : List Task) : Rat :=
  (l.foldl (fun acc t => acc + recordAccuracy t) 0) / (l.length : Rat)

/-- The time-estimation rule of `generateInsights` (`AIInsights.tsx`
lines 68-86): over the truthiness-filtered records, if there are at
least 5, emit the recommendation insight (rounded percentage,
confidence 0.9) when the mean accuracy is strictly below 0.7. -/
def timeInsight (completedTasksHistory : List Task) : Option Insight :=
  let tasksWithTime := completedTasksHistory.filter hasTime
  if 5 ≤ tasksWithTime.length then
    if avgAccuracy tasksWithTime < 0.7 then
      some { id := "time-estimation", type := "recommendation",
             title := "Improve Time Estimation", category := none,
             percent := some (round (avgAccuracy tasksWithTime * 100)),
             confidence := 0.9, actionable := true }
    else none
  else none

/-- A completed history record with the given category. -/
def histTask (cat : String) : Task :=
  { id := "h", title := "h", priority := 1, completed := true, date := 0,
    user_id := "u", category := cat, estimated_minutes := some 30,
    actual_minutes := some 30, energy_level := "medium" }

/-- A 28-record most-recent-first history: the most recent 14 records
are of category work, the older 14 of category health. -/
def cex28 : List Task :=
  List.replicate 14 (histTask "work") ++ List.replicate 14 (histTask "health")

/-- C8 failing-input evaluation: on a most-recent-first history whose
most recent 14 records are all work and whose older 14 are all
health, the rule reports a 100% health concentration — its
`slice(-14)` window is the trailing (oldest) fourteen records of the
most-recent-first array, not the most recent fourteen, whose
categories are all work. -/
theorem categoryInsight_oldest_window :
    categoryInsight cex28 =
      some { id := "category-pattern", type := "pattern",
             title := "Category Focus Detected", category := some "health",
             percent := some 100, confidence := 0.85, actionable := true } ∧
    (cex28.take 14).map (·.category) = List.replicate 14 "work" := by
  constructor
  · have hperc : round ((((14 : Nat) : Rat)) / (((14 : Nat) : Rat)) * 100) = 100 := by
      norm_num
    have h : categoryInsight cex28 =
        some { id := "category-pattern", type := "pattern",
               title := "Category Focus Detected", category := some "health",
               percent := some (round ((((14 : Nat) : Rat)) / (((14 : Nat) : Rat)) * 100)),
               confidence := 0.85, actionable := true } := rfl
    rw [h, hperc]
  · rfl

/-- A completed record with given estimated and actual minutes. -/
def timedTask (e : Nat) (a : Option Nat) : Task :=
  { id := "h", title := "h", priority := 1, completed := true, date := 0,
    user_id := "u", category := "general", estimated_minutes := some e,
    actual_minutes := a, energy_level := "medium" }

/-- Qualifying filter as the claim words it: both minute fields
present and the estimate positive (a present actual of zero
qualifies). -/
def specTimeQualifying (t : Task) : Bool :=
  t.estimated_minutes.isSome && t.actual_minutes.isSome &&
    decide (0 < t.estimated_minutes.getD 0)

/-- A 9-record history: five perfectly estimated records and four
records whose actual minutes are present but zero. -/
def cex9 : List Task :=
  [timedTask 10 (some 10), timedTask 10 (some 10), timedTask 10 (some 10),
   timedTask 10 (some 10), timedTask 10 (some 10), timedTask 10 (some 0),
   timedTask 10 (some 0), timedTask 10 (some 0), timedTask 10 (some 0)]

/-- C9 counterexample: under the claim's qualifying filter (both
fields present, estimate positive) this history has nine qualifying
records with mean clamped accuracy 5/9 < 0.7, so the claim requires
the recommendation insight to be emitted — but the code's truthiness
filter drops the four records with actual minutes zero, leaving mean
accuracy 1, and emits nothing. -/
theorem timeInsight_presence_cex :
    timeInsight cex9 = none ∧
    5 ≤ (cex9.filter specTimeQualifying).length ∧
    avgAccuracy (cex9.filter specTimeQualifying) < 0.7 := by
  have hfil : cex9.filter hasTime =
      [timedTask 10 (some 10), timedTask 10 (some 10), timedTask 10 (some 10),
       timedTask 10 (some 10), timedTask 10 (some 10)] := rfl
  have hacc1 : recordAccuracy (timedTask 10 (some 10)) = 1 := by
    norm_num [recordAccuracy, timedTask]
  have hacc0 : recordAccuracy (timedTask 10 (some 0)) = 0 := by
    norm_num [recordAccuracy, timedTask]
  refine ⟨?_, by decide, ?_⟩
  · have havg : avgAccuracy
        [timedTask 10 (some 10), timedTask 10 (some 10), timedTask 10 (some 10),
         timedTask 10 (some 10), timedTask 10 (some 10)] = 1 := by
      norm_num [avgAccuracy, hacc1]
    rw [timeInsight]
    simp only [hfil, havg]
    rw [if_pos (by norm_num), if_neg (by norm_num)]
  · have hq : cex9.filter specTimeQualifying = cex9 := rfl
    rw [hq]
    have havg9 : avgAccuracy cex9 = 5 / 9 := by
      norm_num [avgAccuracy, cex9, hacc1, hacc0]
    rw [havg9]
    norm_num

/-- C9 (amended): with qualifying records those whose estimated and
actual minutes are both present and nonzero (the code's JavaScript
truthiness filter — a present actual of zero does not qualify), given
at least 5 qualifying records the rule emits the recommendation
insight (reporting the rounded percentage of the mean clamped
accuracy, confidence 0.9) exactly when that mean is strictly below
0.7; a mean of exactly 0.7 emits nothing. -/
theorem timeInsight_strict_threshold (history : List Task)
    (h5 : 5 ≤ (history.filter hasTime).length) :
    ((timeInsight history).isSome ↔ avgAccuracy (history.filter hasTime) < 0.7) ∧
    timeInsight history =
      (if avgAccuracy (history.filter hasTime) < 0.7 then
        some { id := "time-estimation", type := "recommendation",
               title := "Improve Time Estimation", category := none,
               percent := some (round (avgAccuracy (history.filter hasTime) * 100)),
               confidence := 0.9, actionable := true }
      else none) := by
  have hbody : timeInsight history =
      (if avgAccuracy (history.filter hasTime) < 0.7 then
        some { id := "time-estimation", type := "recommendation",
               title := "Improve Time Estimation", category := none,
               percent := some (round (avgAccuracy (history.filter hasTime) * 100)),
               confidence := 0.9, actionable := true }
      else none) := by
    rw [timeInsight]
    simp only [if_pos h5]
  refine ⟨?_, hbody⟩
  rw [hbody]
  by_cases hlt : avgAccuracy (history.filter hasTime) < 0.7
  · simp [hlt]
  · simp [hlt]

/-- A history of five records each with estimation accuracy exactly
0.7 (estimate 10, actual 13). -/
def exBoundary : List Task :=
  [timedTask 10 (some 13), timedTask 10 (some 13), timedTask 10 (some 13),
   timedTask 10 (some 13), timedTask 10 (some 13)]

/-- Witness for C9 (amended) at a concrete input: a mean accuracy of
exactly 0.7 emits no insight. -/
theorem timeInsight_strict_threshold_w : timeInsight exBoundary = none := by
  have h5 : 5 ≤ (exBoundary.filter hasTime).length := by decide
  have h := (timeInsight_strict_threshold exBoundary h5).2
  have hacc : recordAccuracy (timedTask 10 (some 13)) = 7 / 10 := by
    norm_num [recordAccuracy, timedTask]
  have havg : avgAccuracy (exBoundary.filter hasTime) = 7 / 10 := by
    have hf : exBoundary.filter hasTime = exBoundary := rfl
    rw [hf]
    norm_num [avgAccuracy, exBoundary, hacc]
  rw [h, havg, if_neg (by norm_num)]

/-! Gamification component: the reactive badge-award effect. -/

/-- The metric props of the gamification component. -/
structure Metrics where
  currentStreak : Nat
  completedTasksThisWeek : Nat
  weeklyGoal : Nat
deriving DecidableEq, Repr

/-- Observable state of the gamification component: the loaded
earned-badge types (newest first), the badge create calls issued so
far, and how many times the award routine has run. -/
structure GamState where
  badges : List String
  created : List String
  checksRun : Nat
deriving DecidableEq, Repr

/-- One run of the badge-award effect (gamification component, lines
150-154): when the dependencies change, `checkAndAwardBadges` runs
only if the loaded badge collection is non-empty
(`badges.length > 0`); it creates one Badge record per newly eligible
type and prepends each to the local collection. -/
def gamEffect (s : GamState) (m : Metrics) : GamState :=
  if 0 < s.badges.length then
    let nb := checkAndAwardBadges m.currentStreak m.completedTasksThisWeek
      m.weeklyGoal s.badges
    { badges := nb.reverse ++ s.badges,
      created := s.created ++ nb,
      checksRun := s.checksRun + 1 }
  else s

/-- The effect over a whole session: a fold of `gamEffect` over the
successive metric snapshots that trigger it. -/
def gamRun (s : GamState) (ms : List Metrics) : GamState :=
  ms.foldl gamEffect s

/-- C10: the badge-award routine runs only when the loaded
earned-badge collection is non-empty; a user who holds zero badges
never gets an eligibility check and never has a Badge record created,
however large the metrics grow over any sequence of effect runs. -/
theorem gamEffect_requires_existing_badge (ms : List Metrics) (s : GamState)
    (m : Metrics) :
    (s.badges = [] → gamEffect s m = s) ∧
    gamRun { badges := [], created := [], checksRun := 0 } ms =
      { badges := [], created := [], checksRun := 0 } := by
  constructor
  · intro h
    simp [gamEffect, h]
  · induction ms with
    | nil => rfl
    | cons m' tl ih =>
        rw [gamRun, List.foldl_cons]
        have hstep : gamEffect { badges := [], created := [], checksRun := 0 } m' =
            { badges := [], created := [], checksRun := 0 } := by
          simp [gamEffect]
        rw [hstep]
        exact ih

/-- Witness for C10 at a concrete input: with zero loaded badges, an
effect run under huge metrics changes nothing. -/
theorem gamEffect_requires_existing_badge_w :
    gamEffect { badges := [], created := [], checksRun := 0 }
      { currentStreak := 1000, completedTasksThisWeek := 1000, weeklyGoal := 7 } =
      { badges := [], created := [], checksRun := 0 } :=
  (gamEffect_requires_existing_badge [] { badges := [], created := [], checksRun := 0 }
    { currentStreak := 1000, completedTasksThisWeek := 1000, weeklyGoal := 7 }).1 rfl

end DailyTop5
